import Mathlib

/-!
Verification of the VMAS navigation scenario (`vmas/scenarios/navigation.py`).

The Python source operates on batched torch tensors over a batch of
environments.  We embed the batch axis as functions `ℕ → α` (environment
index to value), 2-D vectors as `ℝ × ℝ`, and `torch.linalg.vector_norm` as
the Euclidean norm built from `Real.sqrt`.  Stateful methods
(`reward`, `agent_reward`, `reset_world_at`) become explicit state-passing
functions on a scratch-state record; the static world data (positions,
goals, radii, configuration) is a separate read-only record, since the
scenario methods under study never move entities.
-/

namespace Navigation

/-- 2-D vector, one environment slot of a `(batch, 2)` tensor. -/
abbrev Vec2 := ℝ × ℝ

/-- Componentwise difference of 2-D vectors (`a - b` on tensors). -/
def vsub (a b : Vec2) : Vec2 := (a.1 - b.1, a.2 - b.2)

/-- `torch.linalg.vector_norm(v, dim=-1)` on one batch slot:
Euclidean norm of a 2-D vector. -/
noncomputable def vecNorm (v : Vec2) : ℝ := Real.sqrt (v.1 ^ 2 + v.2 ^ 2)

/-- `BaseNavigationConfig`: the scenario's validated parameter record
(defaults as in the source). -/
structure BaseNavigationConfig where
  n_agents : ℕ := 4
  collisions : Bool := true
  world_spawning_x : ℤ := 1
  world_spawning_y : ℤ := 1
  enforce_bounds : Bool := false
  agents_with_same_goal : ℕ := 1
  split_goals : Bool := false
  observe_all_goals : Bool := false
  lidar_range : ℝ := 0.35
  agent_radius : ℝ := 0.1
  comms_range : ℝ := 0
  n_lidar_rays : ℕ := 12
  shared_rew : Bool := true
  pos_shaping_factor : ℝ := 1
  final_reward : ℝ := 0.01
  agent_collision_penalty : ℝ := -1

/-- `min_collision_distance = 0.005` set in `make_world`. -/
def min_collision_distance : ℝ := 0.005

/-- The goal-index computation of `Scenario.reset_world_at`:
`int(i // agents_with_same_goal)` when `split_goals`, else
`0 if i < agents_with_same_goal else i`. -/
def goalIndex (cfg : BaseNavigationConfig) (i : ℕ) : ℕ :=
  if cfg.split_goals then i / cfg.agents_with_same_goal
  else if i < cfg.agents_with_same_goal then 0 else i

/-- The `assert` chain of `Scenario_.make_world` (lines 92-104), as an
`Except` mirroring each assertion in source order: a failing assertion
raises with its message, otherwise construction proceeds. -/
def make_world_checks (cfg : BaseNavigationConfig) : Except String Unit :=
  if ¬ (1 ≤ cfg.agents_with_same_goal ∧
        cfg.agents_with_same_goal ≤ cfg.n_agents) then
    Except.error "assert 1 <= agents_with_same_goal <= n_agents"
  else if cfg.agents_with_same_goal > 1 ∧ cfg.collisions then
    Except.error "If agents share goals they cannot be collidables"
  else if cfg.split_goals ∧
      ¬ (cfg.n_agents % 2 = 0 ∧
         cfg.agents_with_same_goal = cfg.n_agents / 2) then
    Except.error "Splitting the goals is allowed when the agents are even and half the team has the same goal"
  else Except.ok ()

/-- The spec's configuration invariants, stated as a predicate:
`1 ≤ agents_with_same_goal ≤ n_agents`; grouped goals force collisions
off; `split_goals` forces an even team with exactly half sharing. -/
def ValidNavigationConfig (cfg : BaseNavigationConfig) : Prop :=
  (1 ≤ cfg.agents_with_same_goal ∧ cfg.agents_with_same_goal ≤ cfg.n_agents) ∧
  (cfg.agents_with_same_goal > 1 → cfg.collisions = false) ∧
  (cfg.split_goals = true →
    cfg.n_agents % 2 = 0 ∧ cfg.agents_with_same_goal = cfg.n_agents / 2)

instance (cfg : BaseNavigationConfig) : Decidable (ValidNavigationConfig cfg) := by
  unfold ValidNavigationConfig; infer_instance

open Classical

/-- The read-only world data the scenario methods consume: agent and goal
positions/velocities per environment, shape radii, collide flags, and the
configuration.  `n` is the number of agents (`make_world` adds exactly
`cfg.n_agents` agents and one goal landmark per agent). -/
structure NavWorld (n : ℕ) where
  cfg : BaseNavigationConfig
  pos : Fin n → ℕ → Vec2
  vel : Fin n → ℕ → Vec2
  goalPos : Fin n → ℕ → Vec2
  goalRadius : Fin n → ℝ
  agentRadius : Fin n → ℝ
  collide : Fin n → Bool

/-- The mutable scratch state the scenario owns: per-agent shaping
baseline, reward and collision accumulators and on-goal flags
(`agent.pos_shaping`, `agent.pos_rew`, `agent.agent_collision_rew`,
`agent.on_goal`), and the episode-level `self.pos_rew`, `self.final_rew`. -/
structure Scratch (n : ℕ) where
  pos_shaping : Fin n → ℕ → ℝ
  agent_pos_rew : Fin n → ℕ → ℝ
  on_goal : Fin n → ℕ → Prop
  agent_collision_rew : Fin n → ℕ → ℝ
  pos_rew : ℕ → ℝ
  final_rew : ℕ → ℝ

/-- `agent.distance_to_goal` as computed in `agent_reward` (line 210):
norm of `agent.state.pos - agent.goal.state.pos`. -/
noncomputable def distance_to_goal (w : NavWorld n) (a : Fin n) (e : ℕ) : ℝ :=
  vecNorm (vsub (w.pos a e) (w.goalPos a e))

/-- `Scenario_.agent_reward` (lines 209-219): recomputes the agent's
distance to goal, the on-goal flag (`distance < goal.shape.radius`),
the shaping value `distance * pos_shaping_factor`, sets
`agent.pos_rew = old shaping - new shaping` and stores the new shaping.
The returned value of the Python method is the updated `agent.pos_rew`
field, so the state update captures it. -/
noncomputable def agent_reward (w : NavWorld n) (st : Scratch n) (a : Fin n) :
    Scratch n :=
  let ps : ℕ → ℝ := fun e => distance_to_goal w a e * w.cfg.pos_shaping_factor
  { st with
    on_goal :=
      Function.update st.on_goal a
        (fun e => distance_to_goal w a e < w.goalRadius a)
    agent_pos_rew :=
      Function.update st.agent_pos_rew a (fun e => st.pos_shaping a e - ps e)
    pos_shaping := Function.update st.pos_shaping a ps }

/-- The loop at lines 182-184: for each agent in order,
`self.pos_rew += self.agent_reward(a)` then zero its collision reward. -/
noncomputable def rewardLoop (w : NavWorld n) :
    Scratch n → List (Fin n) → Scratch n
  | st, [] => st
  | st, a :: rest =>
      let st1 := agent_reward w st a
      let st2 :=
        { st1 with
          pos_rew := fun e => st1.pos_rew e + st1.agent_pos_rew a e
          agent_collision_rew :=
            Function.update st1.agent_collision_rew a (fun _ => 0) }
      rewardLoop w st2 rest

/-- `World.collides(a, b)`.  Modelled from the spec: the pairwise collision
predicate is an external collaborator (§6); two agents are mutually
collidable when both carry the collide flag (`make_world` sets it from
`config.collisions`). -/
def collides (w : NavWorld n) (a b : Fin n) : Prop :=
  w.collide a = true ∧ w.collide b = true

/-- `World.get_distance(a, b)`.  Modelled from the spec: the pairwise
distance query is an external collaborator (§6); for two spheres it is the
distance between centers minus the two radii (surface distance). -/
noncomputable def get_distance (w : NavWorld n) (a b : Fin n) (e : ℕ) : ℝ :=
  vecNorm (vsub (w.pos a e) (w.pos b e)) - w.agentRadius a - w.agentRadius b

/-- The iteration order of the nested loop at lines 193-196: ordered pairs
`(i, j)` of agent indices with `j < i` (the `i <= j` cases are skipped),
`i` in the outer loop. -/
def orderedPairs (n : ℕ) : List (Fin n × Fin n) :=
  (List.finRange n).flatMap fun i =>
    ((List.finRange n).filter fun j => j < i).map fun j => (i, j)

/-- One iteration of the collision loop (lines 197-204): if the two agents
collide, add the collision penalty to both accumulators on the batch mask
`distance <= min_collision_distance`. -/
noncomputable def collisionStep (w : NavWorld n) (rew : Fin n → ℕ → ℝ)
    (p : Fin n × Fin n) : Fin n → ℕ → ℝ :=
  if collides w p.1 p.2 then
    let mask : ℕ → Prop := fun e =>
      get_distance w p.1 p.2 e ≤ min_collision_distance
    let rew1 :=
      Function.update rew p.1 (fun e =>
        if mask e then rew p.1 e + w.cfg.agent_collision_penalty
        else rew p.1 e)
    Function.update rew1 p.2 (fun e =>
      if mask e then rew1 p.2 e + w.cfg.agent_collision_penalty
      else rew1 p.2 e)
  else rew

/-- The body of the `is_first` branch of `Scenario_.reward` (lines
178-204): zero the episode accumulators, run the per-agent reward loop,
compute `all_goal_reached` (AND of every agent's on-goal flag), masked-write
the final reward, then run the pairwise collision loop. -/
noncomputable def firstAgentBody (w : NavWorld n) (st : Scratch n) :
    Scratch n :=
  let st0 := { st with pos_rew := fun _ => 0, final_rew := fun _ => 0 }
  let st1 := rewardLoop w st0 (List.finRange n)
  let all_goal_reached : ℕ → Prop := fun e => ∀ a : Fin n, st1.on_goal a e
  let st2 :=
    { st1 with
      final_rew := fun e =>
        if all_goal_reached e then w.cfg.final_reward else st1.final_rew e }
  { st2 with
    agent_collision_rew :=
      (orderedPairs n).foldl (collisionStep w) st2.agent_collision_rew }

/-- `Scenario_.reward` (lines 175-207): on the first agent
(`agent == world.agents[0]`) recompute the shared batched state, then
return `pos_reward + final_rew + agent_collision_rew` where `pos_reward`
is the shared `self.pos_rew` or the agent's own `pos_rew` depending on
`shared_rew`.  Returns the batched reward value and the state after the
call. -/
noncomputable def reward (w : NavWorld n) (st : Scratch n) (i : Fin n) :
    (ℕ → ℝ) × Scratch n :=
  let st1 := if i.val = 0 then firstAgentBody w st else st
  (fun e =>
      (if w.cfg.shared_rew then st1.pos_rew e else st1.agent_pos_rew i e) +
        st1.final_rew e + st1.agent_collision_rew i e,
    st1)

/-- `Scenario_.done` (lines 242-253): for each environment, the AND over
agents of `norm(agent.state.pos - agent.goal.state.pos) < agent.shape.radius`.
Note the radius used is the agent's own, not the goal's. -/
noncomputable def done (w : NavWorld n) (e : ℕ) : Prop :=
  ∀ a : Fin n, vecNorm (vsub (w.pos a e) (w.goalPos a e)) < w.agentRadius a

/-- The termination predicate as the spec words it: every agent's distance
to its goal strictly below the goal's radius.  Spec-worded definition, to
be compared with `done`. -/
noncomputable def doneSpecGoalRadius (w : NavWorld n) (e : ℕ) : Prop :=
  ∀ a : Fin n, vecNorm (vsub (w.pos a e) (w.goalPos a e)) < w.goalRadius a

/-- `Scenario_.observation` (lines 221-240) for one environment slot, as
the list of scalar channels: position (2), velocity (2), goal-relative
position(s) (2 per goal observed), and, when collisions are enabled,
`max_range - measure()` for each lidar ray.  The lidar measurement is an
external sensor; `lidarMeasure` abstracts it, returning one range per ray
(the sensor is constructed with `n_rays = cfg.n_lidar_rays` and
`max_range = cfg.lidar_range`). -/
noncomputable def observation (w : NavWorld n)
    (lidarMeasure : Fin n → ℕ → Fin w.cfg.n_lidar_rays → ℝ)
    (i : Fin n) (e : ℕ) : List ℝ :=
  let goal_poses : List ℝ :=
    if w.cfg.observe_all_goals then
      (List.finRange n).flatMap fun a =>
        [(vsub (w.pos i e) (w.goalPos a e)).1,
         (vsub (w.pos i e) (w.goalPos a e)).2]
    else
      [(vsub (w.pos i e) (w.goalPos i e)).1,
       (vsub (w.pos i e) (w.goalPos i e)).2]
  ([(w.pos i e).1, (w.pos i e).2, (w.vel i e).1, (w.vel i e).2] ++
      goal_poses) ++
    (if w.cfg.collisions then
      List.ofFn (fun r : Fin w.cfg.n_lidar_rays =>
        w.cfg.lidar_range - lidarMeasure i e r)
    else [])

/-- The amount one iteration of the collision loop adds to agent `k`'s
accumulator for the ordered pair `p` (with `p.2 < p.1`): the penalty when
`k` is one of the two agents, they collide and their distance is within
the threshold, else nothing. -/
noncomputable def pairAdd (w : NavWorld n) (p : Fin n × Fin n) (k : Fin n)
    (e : ℕ) : ℝ :=
  if (k = p.1 ∨ k = p.2) ∧ collides w p.1 p.2 ∧
      get_distance w p.1 p.2 e ≤ min_collision_distance
  then w.cfg.agent_collision_penalty else 0

/-! ### Helper lemmas: pointwise characterization of the reward pass -/

lemma vecNorm_zero : vecNorm ((0 : ℝ), (0 : ℝ)) = 0 := by
  simp [vecNorm]

lemma vecNorm_axis (x : ℝ) (hx : 0 ≤ x) : vecNorm (x, 0) = x := by
  simp only [vecNorm]
  rw [show x ^ 2 + (0 : ℝ) ^ 2 = x ^ 2 by ring, Real.sqrt_sq hx]

lemma rewardLoop_final_rew (w : NavWorld n) (st : Scratch n)
    (l : List (Fin n)) : (rewardLoop w st l).final_rew = st.final_rew := by
  induction l generalizing st with
  | nil => rfl
  | cons a rest ih => simp [rewardLoop, agent_reward, ih]

lemma rewardLoop_on_goal (w : NavWorld n) (st : Scratch n) (l : List (Fin n))
    (b : Fin n) :
    (rewardLoop w st l).on_goal b =
      if b ∈ l then (fun e => distance_to_goal w b e < w.goalRadius b)
      else st.on_goal b := by
  induction l generalizing st with
  | nil => simp [rewardLoop]
  | cons a rest ih =>
      by_cases hb : b ∈ rest
      · simp [rewardLoop, ih, hb, List.mem_cons]
      · by_cases hba : b = a
        · subst hba
          simp [rewardLoop, ih, hb, agent_reward]
        · simp [rewardLoop, ih, hb, hba, agent_reward,
            Function.update_apply]

lemma rewardLoop_pos_shaping (w : NavWorld n) (st : Scratch n)
    (l : List (Fin n)) (b : Fin n) :
    (rewardLoop w st l).pos_shaping b =
      if b ∈ l then
        (fun e => distance_to_goal w b e * w.cfg.pos_shaping_factor)
      else st.pos_shaping b := by
  induction l generalizing st with
  | nil => simp [rewardLoop]
  | cons a rest ih =>
      by_cases hb : b ∈ rest
      · simp [rewardLoop, ih, hb, List.mem_cons]
      · by_cases hba : b = a
        · subst hba
          simp [rewardLoop, ih, hb, agent_reward]
        · simp [rewardLoop, ih, hb, hba, agent_reward,
            Function.update_apply]

lemma rewardLoop_agent_collision_rew (w : NavWorld n) (st : Scratch n)
    (l : List (Fin n)) (b : Fin n) :
    (rewardLoop w st l).agent_collision_rew b =
      if b ∈ l then (fun _ => 0) else st.agent_collision_rew b := by
  induction l generalizing st with
  | nil => simp [rewardLoop]
  | cons a rest ih =>
      by_cases hb : b ∈ rest
      · simp [rewardLoop, ih, hb, List.mem_cons]
      · by_cases hba : b = a
        · subst hba
          simp [rewardLoop, ih, hb, agent_reward]
        · simp [rewardLoop, ih, hb, hba, agent_reward,
            Function.update_apply]

lemma rewardLoop_agent_pos_rew (w : NavWorld n) (st : Scratch n)
    (l : List (Fin n)) (hl : l.Nodup) (b : Fin n) :
    (rewardLoop w st l).agent_pos_rew b =
      if b ∈ l then
        (fun e =>
          st.pos_shaping b e -
            distance_to_goal w b e * w.cfg.pos_shaping_factor)
      else st.agent_pos_rew b := by
  induction l generalizing st with
  | nil => simp [rewardLoop]
  | cons a rest ih =>
      have ha : a ∉ rest := (List.nodup_cons.mp hl).1
      have hrest : rest.Nodup := (List.nodup_cons.mp hl).2
      have ih2 := fun st => ih st hrest
      by_cases hb : b ∈ rest
      · have hba : b ≠ a := fun h => ha (h ▸ hb)
        simp [rewardLoop, ih2, hb, List.mem_cons, agent_reward,
          Function.update_apply, hba]
      · by_cases hba : b = a
        · subst hba
          simp [rewardLoop, ih2, hb, agent_reward]
        · simp [rewardLoop, ih2, hb, hba, agent_reward,
            Function.update_apply]

lemma rewardLoop_pos_rew (w : NavWorld n) (st : Scratch n)
    (l : List (Fin n)) (hl : l.Nodup) (e : ℕ) :
    (rewardLoop w st l).pos_rew e =
      st.pos_rew e +
        (l.map (fun a =>
          st.pos_shaping a e -
            distance_to_goal w a e * w.cfg.pos_shaping_factor)).sum := by
  induction l generalizing st with
  | nil => simp [rewardLoop]
  | cons a rest ih =>
      have ha : a ∉ rest := (List.nodup_cons.mp hl).1
      have hrest : rest.Nodup := (List.nodup_cons.mp hl).2
      rw [rewardLoop, ih _ hrest]
      dsimp only [agent_reward]
      have hmap :
          rest.map (fun b =>
            Function.update st.pos_shaping a
                (fun e2 =>
                  distance_to_goal w a e2 * w.cfg.pos_shaping_factor) b e -
              distance_to_goal w b e * w.cfg.pos_shaping_factor) =
          rest.map (fun b =>
            st.pos_shaping b e -
              distance_to_goal w b e * w.cfg.pos_shaping_factor) := by
        refine List.map_congr_left fun b hb => ?_
        have hba : b ≠ a := fun h => ha (h ▸ hb)
        rw [Function.update_noteq hba]
      rw [hmap, Function.update_same]
      simp only [List.map_cons, List.sum_cons]
      ring

lemma mem_orderedPairs {n : ℕ} (p : Fin n × Fin n) :
    p ∈ orderedPairs n ↔ p.2 < p.1 := by
  constructor
  · intro hp
    rcases List.mem_flatMap.mp hp with ⟨i, _, hmem⟩
    rcases List.mem_map.mp hmem with ⟨j, hj, hpe⟩
    have hji : j < i := of_decide_eq_true (List.mem_filter.mp hj).2
    rw [← hpe]
    exact hji
  · intro hlt
    refine List.mem_flatMap.mpr ⟨p.1, List.mem_finRange _, ?_⟩
    refine List.mem_map.mpr ⟨p.2, ?_, rfl⟩
    exact List.mem_filter.mpr ⟨List.mem_finRange _, decide_eq_true hlt⟩

lemma collisionStep_apply (w : NavWorld n) (rew : Fin n → ℕ → ℝ)
    (p : Fin n × Fin n) (hp : p.2 ≠ p.1) (k : Fin n) (e : ℕ) :
    collisionStep w rew p k e = rew k e + pairAdd w p k e := by
  unfold collisionStep pairAdd
  by_cases hc : collides w p.1 p.2
  · simp only [hc, if_true, true_and]
    by_cases hk2 : k = p.2
    · subst hk2
      rw [Function.update_same, Function.update_noteq hp]
      by_cases hd : get_distance w p.1 p.2 e ≤ min_collision_distance
      · simp [hd, hc]
      · simp [hd, hc]
    · rw [Function.update_noteq hk2]
      by_cases hk1 : k = p.1
      · rw [hk1, Function.update_same]
        by_cases hd : get_distance w p.1 p.2 e ≤ min_collision_distance
        · simp [hd, hc]
        · simp [hd, hc]
      · rw [Function.update_noteq hk1]
        simp [hk1, hk2]
  · simp [hc]

lemma collision_foldl (w : NavWorld n) (l : List (Fin n × Fin n))
    (hl : ∀ p ∈ l, p.2 < p.1) (rew : Fin n → ℕ → ℝ) (k : Fin n) (e : ℕ) :
    (l.foldl (collisionStep w) rew) k e =
      rew k e + (l.map (fun p => pairAdd w p k e)).sum := by
  induction l generalizing rew with
  | nil => simp
  | cons p rest ih =>
      have hp : p.2 ≠ p.1 := ne_of_lt (hl p (List.mem_cons_self p rest))
      have hrest : ∀ q ∈ rest, q.2 < q.1 :=
        fun q hq => hl q (List.mem_cons_of_mem p hq)
      simp only [List.foldl_cons, ih hrest, List.map_cons, List.sum_cons,
        collisionStep_apply w rew p hp k e]
      ring

/-! ### Pointwise characterization of `firstAgentBody` -/

lemma firstAgentBody_pos_shaping (w : NavWorld n) (st : Scratch n)
    (b : Fin n) (e : ℕ) :
    (firstAgentBody w st).pos_shaping b e =
      distance_to_goal w b e * w.cfg.pos_shaping_factor := by
  unfold firstAgentBody
  simp [rewardLoop_pos_shaping, List.mem_finRange]

lemma firstAgentBody_agent_pos_rew (w : NavWorld n) (st : Scratch n)
    (b : Fin n) (e : ℕ) :
    (firstAgentBody w st).agent_pos_rew b e =
      st.pos_shaping b e -
        distance_to_goal w b e * w.cfg.pos_shaping_factor := by
  unfold firstAgentBody
  simp [rewardLoop_agent_pos_rew w _ _ (List.nodup_finRange n),
    List.mem_finRange]

lemma firstAgentBody_pos_rew (w : NavWorld n) (st : Scratch n) (e : ℕ) :
    (firstAgentBody w st).pos_rew e =
      ((List.finRange n).map (fun a =>
        st.pos_shaping a e -
          distance_to_goal w a e * w.cfg.pos_shaping_factor)).sum := by
  unfold firstAgentBody
  simp [rewardLoop_pos_rew w _ _ (List.nodup_finRange n)]

lemma firstAgentBody_final_rew (w : NavWorld n) (st : Scratch n) (e : ℕ) :
    (firstAgentBody w st).final_rew e =
      if ∀ a : Fin n, distance_to_goal w a e < w.goalRadius a
      then w.cfg.final_reward else 0 := by
  unfold firstAgentBody
  dsimp only
  rw [rewardLoop_final_rew]
  refine if_congr ?_ rfl rfl
  constructor
  · intro h a
    have := h a
    rwa [rewardLoop_on_goal, if_pos (List.mem_finRange a)] at this
  · intro h a
    rw [rewardLoop_on_goal, if_pos (List.mem_finRange a)]
    exact h a

lemma firstAgentBody_agent_collision_rew (w : NavWorld n) (st : Scratch n)
    (k : Fin n) (e : ℕ) :
    (firstAgentBody w st).agent_collision_rew k e =
      ((orderedPairs n).map (fun p => pairAdd w p k e)).sum := by
  unfold firstAgentBody
  dsimp only
  rw [collision_foldl w _ (fun p hp => (mem_orderedPairs p).mp hp),
    rewardLoop_agent_collision_rew, if_pos (List.mem_finRange k)]
  simp

lemma vecNorm_vsub_comm (a b : Vec2) : vecNorm (vsub a b) = vecNorm (vsub b a) := by
  unfold vecNorm vsub
  ring_nf

lemma get_distance_symm (w : NavWorld n) (a b : Fin n) (e : ℕ) :
    get_distance w a b e = get_distance w b a e := by
  unfold get_distance
  rw [vecNorm_vsub_comm]
  ring

/-! ### Concrete inputs used by counterexamples and witnesses -/

/-- A 1-agent world whose agent sits at distance 3/4 from its goal, with
agent shape radius 1 and goal shape radius 1/2. -/
noncomputable def cexDoneWorld : NavWorld 1 where
  cfg := {}
  pos := fun _ _ => (3 / 4, 0)
  vel := fun _ _ => (0, 0)
  goalPos := fun _ _ => (0, 0)
  goalRadius := fun _ => 1 / 2
  agentRadius := fun _ => 1
  collide := fun _ => false

lemma cexDoneWorld_dist (a : Fin 1) (e : ℕ) :
    vecNorm (vsub (cexDoneWorld.pos a e) (cexDoneWorld.goalPos a e)) = 3 / 4 := by
  show vecNorm (vsub (3 / 4, 0) (0, 0)) = 3 / 4
  rw [show vsub ((3 : ℝ) / 4, (0 : ℝ)) ((0 : ℝ), (0 : ℝ)) =
        ((3 : ℝ) / 4, (0 : ℝ)) by simp [vsub]]
  exact vecNorm_axis _ (by norm_num)

/-! ### Claim C1: termination predicate -/

/-- C1 (counterexample): at a state where the agent's distance to its
goal is 3/4, the agent's shape radius is 1 and the goal's shape radius is
1/2, `done` is true although not every distance is below the goal's
radius — `done` compares against the agent's radius, not the goal's, so
the claimed equivalence fails. -/
theorem done_goal_radius_cex :
    ¬ (done cexDoneWorld 0 ↔ doneSpecGoalRadius cexDoneWorld 0) := by
  intro h
  have hdone : done cexDoneWorld 0 := by
    intro a
    rw [cexDoneWorld_dist a 0]
    show (3 : ℝ) / 4 < 1
    norm_num
  have hspec := h.mp hdone 0
  rw [cexDoneWorld_dist 0 0] at hspec
  have : ((1 : ℝ) / 2) = cexDoneWorld.goalRadius 0 := rfl
  rw [← this] at hspec
  norm_num at hspec

/-- C1 (amended): for every environment in the batch, `done()` returns
true iff every agent's Euclidean distance to its goal's position is
strictly less than the *agent's own shape* radius (not the goal's);
`done()` reads positions only and mutates no scenario state. -/
theorem done_iff_all_within_agent_radius (w : NavWorld n) (e : ℕ) :
    done w e ↔ ∀ a : Fin n, distance_to_goal w a e < w.agentRadius a :=
  Iff.rfl

/-! ### Claim C4: goal-to-agent assignment -/

/-- The configuration of the claim's concrete case: 4 agents, split
goals, 2 agents per goal (collisions off, as the validation requires). -/
def cfgSplit4 : BaseNavigationConfig :=
  { n_agents := 4, split_goals := true, agents_with_same_goal := 2,
    collisions := false }

/-- C4: at reset, if `split_goals` agent `i` gets goal index
`i // agents_with_same_goal`; otherwise index 0 when
`i < agents_with_same_goal` and index `i` otherwise.  With 4 agents,
split goals and 2 agents per goal the assignment is `[0, 0, 1, 1]`, and
with `agents_with_same_goal = n_agents` without split every agent gets
goal index 0. -/
theorem goal_assignment_matches_spec (cfg : BaseNavigationConfig) (i : ℕ) :
    (cfg.split_goals = true →
      goalIndex cfg i = i / cfg.agents_with_same_goal) ∧
    (cfg.split_goals = false → i < cfg.agents_with_same_goal →
      goalIndex cfg i = 0) ∧
    (cfg.split_goals = false → cfg.agents_with_same_goal ≤ i →
      goalIndex cfg i = i) ∧
    ((List.range 4).map (goalIndex cfgSplit4) = [0, 0, 1, 1]) ∧
    (cfg.split_goals = false → cfg.agents_with_same_goal = cfg.n_agents →
      i < cfg.n_agents → goalIndex cfg i = 0) := by
  refine ⟨fun hs => ?_, fun hs hlt => ?_, fun hs hge => ?_, by decide,
    fun hs heq hlt => ?_⟩
  · simp [goalIndex, hs]
  · simp [goalIndex, hs, hlt]
  · simp [goalIndex, hs, Nat.not_lt.mpr hge]
  · simp [goalIndex, hs, heq ▸ hlt]

/-- Witness for C4 at a concrete configuration: 4 agents all sharing
goal 0 (`agents_with_same_goal = n_agents = 4`, no split), agent 2. -/
def cfgAllShare4 : BaseNavigationConfig :=
  { n_agents := 4, agents_with_same_goal := 4, split_goals := false,
    collisions := false }

theorem goal_assignment_matches_spec_witness :
    cfgAllShare4.split_goals = false ∧
    cfgAllShare4.agents_with_same_goal = cfgAllShare4.n_agents ∧
    2 < cfgAllShare4.n_agents ∧ goalIndex cfgAllShare4 2 = 0 :=
  ⟨rfl, rfl, by decide,
    (goal_assignment_matches_spec cfgAllShare4 2).2.2.2.2 rfl rfl (by decide)⟩

/-! ### Claim C9: construction-time validation -/

/-- C9: `make_world` raises exactly on the invalid configurations: the
assertion chain succeeds iff the grouping and splitting invariants hold
(the remaining conditions of the claim — wrong config type and unexpected
extra fields — are enforced by the typed configuration record itself,
`isinstance` and pydantic's `extra="forbid"`). -/
theorem make_world_validation_complete (cfg : BaseNavigationConfig) :
    make_world_checks cfg = Except.ok () ↔ ValidNavigationConfig cfg := by
  unfold make_world_checks ValidNavigationConfig
  by_cases h1 : 1 ≤ cfg.agents_with_same_goal ∧
      cfg.agents_with_same_goal ≤ cfg.n_agents
  · by_cases h2 : cfg.agents_with_same_goal > 1 ∧ cfg.collisions = true
    · rw [if_neg (not_not.mpr h1), if_pos h2]
      exact iff_of_false (by simp)
        fun hR => absurd (hR.2.1 h2.1) (by simp [h2.2])
    · by_cases h3 : cfg.split_goals = true ∧
          ¬ (cfg.n_agents % 2 = 0 ∧
             cfg.agents_with_same_goal = cfg.n_agents / 2)
      · rw [if_neg (not_not.mpr h1), if_neg h2, if_pos h3]
        exact iff_of_false (by simp) fun hR => h3.2 (hR.2.2 h3.1)
      · rw [if_neg (not_not.mpr h1), if_neg h2, if_neg h3]
        refine iff_of_true rfl ⟨h1, fun hgt => ?_, fun hs => ?_⟩
        · cases hc : cfg.collisions
          · rfl
          · exact absurd ⟨hgt, hc⟩ h2
        · exact not_not.mp fun hno => h3 ⟨hs, hno⟩
  · rw [if_pos h1]
    exact iff_of_false (by simp) fun hR => h1 hR.1

/-! ### Claim C7: observation vector length -/

lemma sum_length_pairs {α β : Type} (l : List α) (f g : α → β) :
    (l.map (List.length ∘ fun a => [f a, g a])).sum = 2 * l.length := by
  induction l with
  | nil => simp
  | cons a rest ih =>
      simp only [List.map_cons, List.sum_cons, ih, Function.comp_apply,
        List.length_cons, List.length_nil]
      ring

/-- C7: for a fixed configuration the observation vector has the same
length for every agent and every environment, namely
`4 + (2 * n_agents if observe_all_goals else 2) +
(n_lidar_rays if collisions else 0)`. -/
theorem observation_length_formula (w : NavWorld n)
    (lidarMeasure : Fin n → ℕ → Fin w.cfg.n_lidar_rays → ℝ)
    (i : Fin n) (e : ℕ) (hn : n = w.cfg.n_agents) :
    ((observation w lidarMeasure i e).length =
      4 + (if w.cfg.observe_all_goals then 2 * w.cfg.n_agents else 2) +
        (if w.cfg.collisions then w.cfg.n_lidar_rays else 0)) ∧
    (∀ (i2 : Fin n) (e2 : ℕ),
      (observation w lidarMeasure i2 e2).length =
        (observation w lidarMeasure i e).length) := by
  have hlen : ∀ (i2 : Fin n) (e2 : ℕ),
      (observation w lidarMeasure i2 e2).length =
        4 + (if w.cfg.observe_all_goals then 2 * w.cfg.n_agents else 2) +
          (if w.cfg.collisions then w.cfg.n_lidar_rays else 0) := by
    intro i2 e2
    unfold observation
    by_cases hobs : w.cfg.observe_all_goals = true
    · by_cases hcol : w.cfg.collisions = true
      · simp [hobs, hcol, sum_length_pairs, ← hn]
        ring
      · simp [hobs, hcol, sum_length_pairs, ← hn]
        ring
    · by_cases hcol : w.cfg.collisions = true
      · simp [hobs, hcol]
        ring
      · simp [hobs, hcol]
  exact ⟨hlen i e, fun i2 e2 => (hlen i2 e2).trans (hlen i e).symm⟩

/-- Concrete world for the C7 witness: one agent, `n_agents = 1`,
collisions on (12 lidar rays), own goal only. -/
noncomputable def wObs1 : NavWorld 1 where
  cfg := { n_agents := 1 }
  pos := fun _ _ => (0, 0)
  vel := fun _ _ => (0, 0)
  goalPos := fun _ _ => (0, 0)
  goalRadius := fun _ => 1 / 20
  agentRadius := fun _ => 1 / 10
  collide := fun _ => true

noncomputable def lidarZero : Fin 1 → ℕ → Fin wObs1.cfg.n_lidar_rays → ℝ :=
  fun _ _ _ => 0

theorem observation_length_formula_witness :
    (1 = wObs1.cfg.n_agents) ∧
    (observation wObs1 lidarZero 0 0).length = 18 := by
  refine ⟨rfl, ?_⟩
  rw [(observation_length_formula wObs1 lidarZero 0 0 rfl).1]
  norm_num [wObs1]

/-! ### Claim C2: telescoping of the shaping reward -/

/-- One agent's per-step progress rewards along a trajectory: `ws` holds
one `NavWorld` per simulation step (positions advanced by the external
physics, goals fixed between resets); each step the reward engine runs
the first-agent recomputation `firstAgentBody`, and the agent's
`pos_rew` field after it is that step's progress reward. -/
noncomputable def trajRewards (a : Fin n) (e : ℕ) :
    Scratch n → List (NavWorld n) → List ℝ
  | _, [] => []
  | st, w :: ws =>
      (firstAgentBody w st).agent_pos_rew a e ::
        trajRewards a e (firstAgentBody w st) ws

/-- C2: with `pos_shaping_factor = 1`, the sum of an agent's per-step
progress rewards over any trajectory of steps after a reset equals the
distance to its goal at reset (the shaping baseline installed by
`reset_world_at`) minus the distance to its goal after the last step,
independent of the path taken. -/
theorem shaping_reward_telescopes (a : Fin n) (e : ℕ) (st : Scratch n)
    (wR : NavWorld n) (ws : List (NavWorld n)) (hne : ws ≠ [])
    (hreset : st.pos_shaping a e = distance_to_goal wR a e)
    (hf : ∀ w ∈ ws, w.cfg.pos_shaping_factor = 1) :
    (trajRewards a e st ws).sum =
      distance_to_goal wR a e - distance_to_goal (ws.getLast hne) a e := by
  induction ws generalizing st wR with
  | nil => exact absurd rfl hne
  | cons w ws2 ih =>
      rw [trajRewards]
      cases ws2 with
      | nil =>
          simp only [trajRewards, List.sum_cons, List.sum_nil,
            List.getLast_singleton]
          rw [firstAgentBody_agent_pos_rew, hreset, hf w (by simp)]
          ring
      | cons w2 ws3 =>
          have hne2 : w2 :: ws3 ≠ [] := by simp
          have hstep : (firstAgentBody w st).pos_shaping a e =
              distance_to_goal w a e := by
            rw [firstAgentBody_pos_shaping, hf w (by simp), mul_one]
          rw [List.sum_cons,
            ih (firstAgentBody w st) w hne2 hstep
              (fun x hx => hf x (List.mem_cons_of_mem _ hx)),
            firstAgentBody_agent_pos_rew, hreset, hf w (by simp),
            show (w :: w2 :: ws3).getLast hne = (w2 :: ws3).getLast hne2
              from List.getLast_cons hne2]
          ring

/-- Post-reset world for the C2 witness: agent at distance 2 from its
goal. -/
noncomputable def wReset2 : NavWorld 1 where
  cfg := {}
  pos := fun _ _ => (2, 0)
  vel := fun _ _ => (0, 0)
  goalPos := fun _ _ => (0, 0)
  goalRadius := fun _ => 1 / 20
  agentRadius := fun _ => 1 / 10
  collide := fun _ => false

/-- World after one physics step for the C2 witness: agent moved to
distance 1 from its goal. -/
noncomputable def wStep2 : NavWorld 1 where
  cfg := {}
  pos := fun _ _ => (1, 0)
  vel := fun _ _ => (0, 0)
  goalPos := fun _ _ => (0, 0)
  goalRadius := fun _ => 1 / 20
  agentRadius := fun _ => 1 / 10
  collide := fun _ => false

/-- Scratch state right after the reset that installed the shaping
baseline 2 (= the reset distance times factor 1). -/
noncomputable def stReset2 : Scratch 1 where
  pos_shaping := fun _ _ => 2
  agent_pos_rew := fun _ _ => 0
  on_goal := fun _ _ => False
  agent_collision_rew := fun _ _ => 0
  pos_rew := fun _ => 0
  final_rew := fun _ => 0

lemma wReset2_dist (a : Fin 1) (e : ℕ) : distance_to_goal wReset2 a e = 2 := by
  show vecNorm (vsub (2, 0) (0, 0)) = 2
  rw [show vsub ((2 : ℝ), (0 : ℝ)) ((0 : ℝ), (0 : ℝ)) = ((2 : ℝ), (0 : ℝ))
    by simp [vsub]]
  exact vecNorm_axis _ (by norm_num)

lemma wStep2_dist (a : Fin 1) (e : ℕ) : distance_to_goal wStep2 a e = 1 := by
  show vecNorm (vsub (1, 0) (0, 0)) = 1
  rw [show vsub ((1 : ℝ), (0 : ℝ)) ((0 : ℝ), (0 : ℝ)) = ((1 : ℝ), (0 : ℝ))
    by simp [vsub]]
  exact vecNorm_axis _ (by norm_num)

theorem shaping_reward_telescopes_witness :
    ([wStep2] ≠ ([] : List (NavWorld 1))) ∧
    stReset2.pos_shaping 0 0 = distance_to_goal wReset2 0 0 ∧
    (∀ w ∈ [wStep2], w.cfg.pos_shaping_factor = 1) ∧
    (trajRewards 0 0 stReset2 [wStep2]).sum = 1 := by
  have hne : [wStep2] ≠ ([] : List (NavWorld 1)) := by simp
  have hreset : stReset2.pos_shaping 0 0 = distance_to_goal wReset2 0 0 := by
    rw [wReset2_dist]
    rfl
  have hf : ∀ w ∈ [wStep2], w.cfg.pos_shaping_factor = 1 := by
    intro w hw
    rw [List.mem_singleton.mp hw]
    rfl
  refine ⟨hne, hreset, hf, ?_⟩
  rw [shaping_reward_telescopes 0 0 stReset2 wReset2 [wStep2] hne hreset hf,
    wReset2_dist]
  rw [show ([wStep2].getLast hne) = wStep2 from rfl, wStep2_dist]
  norm_num

/-! ### Claim C3: terminal bonus -/

/-- A 1-agent world whose agent already sits on its goal. -/
noncomputable def wOnGoal : NavWorld 1 where
  cfg := {}
  pos := fun _ _ => (0, 0)
  vel := fun _ _ => (0, 0)
  goalPos := fun _ _ => (0, 0)
  goalRadius := fun _ => 1 / 2
  agentRadius := fun _ => 1 / 10
  collide := fun _ => false

/-- Scratch state right after a reset with the agent already on goal
(shaping baseline 0). -/
noncomputable def zeroScratch : Scratch 1 where
  pos_shaping := fun _ _ => 0
  agent_pos_rew := fun _ _ => 0
  on_goal := fun _ _ => False
  agent_collision_rew := fun _ _ => 0
  pos_rew := fun _ => 0
  final_rew := fun _ => 0

lemma wOnGoal_dist (a : Fin 1) (e : ℕ) : distance_to_goal wOnGoal a e = 0 := by
  show vecNorm (vsub (0, 0) (0, 0)) = 0
  rw [show vsub ((0 : ℝ), (0 : ℝ)) ((0 : ℝ), (0 : ℝ)) = ((0 : ℝ), (0 : ℝ))
    by simp [vsub]]
  exact vecNorm_zero

lemma wOnGoal_all_on_goal (e : ℕ) :
    ∀ a : Fin 1, distance_to_goal wOnGoal a e < wOnGoal.goalRadius a := by
  intro a
  rw [wOnGoal_dist]
  show (0 : ℝ) < 1 / 2
  norm_num

/-- C3 (counterexample): the single agent is already on its goal.  Run
the reward computation on two consecutive steps with no reset in between
(positions unchanged, so the agents merely *remain* on-goal): the
terminal bonus `final_reward = 0.01` is applied again on the second step
(both inside `final_rew` and in the value `reward` returns), contradicting
"only on that step". -/
theorem final_reward_reapplied_cex :
    (∀ a : Fin 1, distance_to_goal wOnGoal a 0 < wOnGoal.goalRadius a) ∧
    (reward wOnGoal zeroScratch 0).2.final_rew 0 = 1 / 100 ∧
    (reward wOnGoal ((reward wOnGoal zeroScratch 0).2) 0).2.final_rew 0 =
      1 / 100 ∧
    (reward wOnGoal ((reward wOnGoal zeroScratch 0).2) 0).1 0 = 1 / 100 ∧
    ((1 : ℝ) / 100 ≠ 0) := by
  have hOn := wOnGoal_all_on_goal 0
  have hfinal : ∀ st : Scratch 1,
      (reward wOnGoal st 0).2.final_rew 0 = 1 / 100 := by
    intro st
    show (firstAgentBody wOnGoal st).final_rew 0 = 1 / 100
    rw [firstAgentBody_final_rew, if_pos hOn]
    norm_num [wOnGoal]
  refine ⟨hOn, hfinal _, hfinal _, ?_, by norm_num⟩
  show (if wOnGoal.cfg.shared_rew then
          (firstAgentBody wOnGoal (firstAgentBody wOnGoal zeroScratch)).pos_rew 0
        else
          (firstAgentBody wOnGoal
            (firstAgentBody wOnGoal zeroScratch)).agent_pos_rew 0 0) +
      (firstAgentBody wOnGoal (firstAgentBody wOnGoal zeroScratch)).final_rew 0 +
      (firstAgentBody wOnGoal
        (firstAgentBody wOnGoal zeroScratch)).agent_collision_rew 0 0 =
      1 / 100
  rw [if_pos (show wOnGoal.cfg.shared_rew = true from rfl)]
  rw [firstAgentBody_pos_rew, firstAgentBody_final_rew, if_pos hOn,
    firstAgentBody_agent_collision_rew,
    show orderedPairs 1 = [] from rfl]
  have hsh : ∀ a : Fin 1,
      (firstAgentBody wOnGoal zeroScratch).pos_shaping a 0 = 0 := by
    intro a
    rw [firstAgentBody_pos_shaping, wOnGoal_dist]
    ring
  rw [show List.finRange 1 = [0] from rfl]
  simp only [List.map_cons, List.map_nil, List.sum_cons, List.sum_nil]
  rw [hsh 0, wOnGoal_dist]
  norm_num [wOnGoal]

/-- C3 (amended): the terminal bonus is applied to every agent's reward
on *every* step in which all agents of the environment are simultaneously
on-goal — the first such step and also every subsequent one while they
remain on-goal (the masked write has no memory of previous steps: the
resulting `final_rew` does not depend on the incoming scratch state) —
and on no other step. -/
theorem final_reward_on_all_on_goal_steps (w : NavWorld n) (st : Scratch n)
    (h0 : 0 < n) (e : ℕ) :
    ((reward w st ⟨0, h0⟩).2).final_rew e =
      (if ∀ a : Fin n, distance_to_goal w a e < w.goalRadius a
       then w.cfg.final_reward else 0) := by
  show (firstAgentBody w st).final_rew e = _
  exact firstAgentBody_final_rew w st e

theorem final_reward_on_all_on_goal_steps_witness :
    0 < 1 ∧
    ((reward wOnGoal zeroScratch ⟨0, Nat.one_pos⟩).2).final_rew 0 =
      (if ∀ a : Fin 1, distance_to_goal wOnGoal a 0 < wOnGoal.goalRadius a
       then wOnGoal.cfg.final_reward else 0) :=
  ⟨Nat.one_pos,
    final_reward_on_all_on_goal_steps wOnGoal zeroScratch Nat.one_pos 0⟩

/-! ### Claim C5: idempotence and order-independence of `reward` -/

/-- The value `reward` returns for the first (and only) agent of a
1-agent world with shared rewards: team progress reward plus terminal
bonus (no collision pairs exist). -/
lemma reward_first_single (w : NavWorld 1) (st : Scratch 1)
    (hshared : w.cfg.shared_rew = true) :
    (reward w st 0).1 0 =
      (st.pos_shaping 0 0 -
        distance_to_goal w 0 0 * w.cfg.pos_shaping_factor) +
      (if ∀ a : Fin 1, distance_to_goal w a 0 < w.goalRadius a
       then w.cfg.final_reward else 0) := by
  show (if w.cfg.shared_rew then (firstAgentBody w st).pos_rew 0
        else (firstAgentBody w st).agent_pos_rew 0 0) +
      (firstAgentBody w st).final_rew 0 +
      (firstAgentBody w st).agent_collision_rew 0 0 = _
  rw [if_pos hshared, firstAgentBody_pos_rew, firstAgentBody_final_rew,
    firstAgentBody_agent_collision_rew, show orderedPairs 1 = [] from rfl,
    show List.finRange 1 = [0] from rfl]
  simp only [List.map_cons, List.map_nil, List.sum_cons, List.sum_nil]
  ring

lemma wStep2_not_all_on_goal :
    ¬ ∀ a : Fin 1, distance_to_goal wStep2 a 0 < wStep2.goalRadius a := by
  intro h
  have h0 := h 0
  rw [wStep2_dist] at h0
  have : wStep2.goalRadius 0 = 1 / 20 := rfl
  rw [this] at h0
  norm_num at h0

/-- C5 (counterexample): calling `reward` twice on the same agent within
one step does not return the same value.  The agent is the first agent
(`world.agents[0]`), at distance 1 from its goal with shaping baseline 2:
the first call returns 1, but the call re-runs the shared recomputation,
so the second call returns 0. -/
theorem reward_not_idempotent_cex :
    (reward wStep2 stReset2 0).1 0 = 1 ∧
    (reward wStep2 ((reward wStep2 stReset2 0).2) 0).1 0 = 0 ∧
    ((1 : ℝ) ≠ 0) := by
  refine ⟨?_, ?_, by norm_num⟩
  · rw [reward_first_single wStep2 stReset2 rfl, wStep2_dist,
      if_neg wStep2_not_all_on_goal]
    show (2 : ℝ) - 1 * wStep2.cfg.pos_shaping_factor + 0 = 1
    rw [show wStep2.cfg.pos_shaping_factor = 1 from rfl]
    norm_num
  · rw [show (reward wStep2 stReset2 0).2 = firstAgentBody wStep2 stReset2
      from rfl]
    rw [reward_first_single wStep2 _ rfl, wStep2_dist,
      if_neg wStep2_not_all_on_goal, firstAgentBody_pos_shaping, wStep2_dist]
    ring

/-- C5 (amended): within one step, `reward` is pure — hence idempotent
and order-independent — for every agent other than the first: such calls
leave the scratch state unchanged and their value is unaffected by other
non-first calls.  Only the call for `world.agents[0]` recomputes the
shared batched state, and repeating that first call re-runs the
recomputation, so idempotence does not extend to it (see the
counterexample). -/
theorem reward_non_first_is_pure (w : NavWorld n) (st : Scratch n)
    (i : Fin n) (hi : i.val ≠ 0) :
    ((reward w st i).2 = st) ∧
    ((reward w (reward w st i).2 i).1 = (reward w st i).1) ∧
    (∀ j : Fin n, j.val ≠ 0 →
      (reward w (reward w st j).2 i).1 = (reward w st i).1) := by
  have hst : (reward w st i).2 = st := by
    show (if i.val = 0 then firstAgentBody w st else st) = st
    rw [if_neg hi]
  refine ⟨hst, by rw [hst], fun j hj => ?_⟩
  have hstj : (reward w st j).2 = st := by
    show (if j.val = 0 then firstAgentBody w st else st) = st
    rw [if_neg hj]
  rw [hstj]

/-- A 2-agent world used by the C5 and C6 witnesses: both agents at the
origin, mutually collidable, zero shape radius. -/
noncomputable def wTwo : NavWorld 2 where
  cfg := {}
  pos := fun _ _ => (0, 0)
  vel := fun _ _ => (0, 0)
  goalPos := fun _ _ => (1, 0)
  goalRadius := fun _ => 1 / 20
  agentRadius := fun _ => 0
  collide := fun _ => true

noncomputable def stTwo : Scratch 2 where
  pos_shaping := fun _ _ => 0
  agent_pos_rew := fun _ _ => 0
  on_goal := fun _ _ => False
  agent_collision_rew := fun _ _ => 0
  pos_rew := fun _ => 0
  final_rew := fun _ => 0

theorem reward_non_first_is_pure_witness :
    ((1 : Fin 2).val ≠ 0) ∧ ((reward wTwo stTwo 1).2 = stTwo) :=
  ⟨by decide, (reward_non_first_is_pure wTwo stTwo 1 (by decide)).1⟩

/-! ### Claim C6: symmetric collision penalty -/

/-- C6: for agents `i < j` that are mutually collidable with pairwise
distance within the fixed threshold `min_collision_distance = 0.005` in
environment `e`, the collision loop iterates the unordered pair exactly
as the ordered pair `(j, i)`, and that iteration adds the identical
configured penalty to both agents' accumulators; each agent's
accumulator after the pass is the sum of its per-pair accruals. -/
theorem collision_penalty_symmetric (w : NavWorld n) (st : Scratch n)
    (i j : Fin n) (e : ℕ) (hij : i < j) (hc : collides w i j)
    (hd : get_distance w i j e ≤ min_collision_distance) :
    ((j, i) ∈ orderedPairs n) ∧
    pairAdd w (j, i) i e = w.cfg.agent_collision_penalty ∧
    pairAdd w (j, i) j e = w.cfg.agent_collision_penalty ∧
    (∀ k : Fin n,
      (firstAgentBody w st).agent_collision_rew k e =
        ((orderedPairs n).map (fun p => pairAdd w p k e)).sum) := by
  have hcs : collides w j i := ⟨hc.2, hc.1⟩
  have hds : get_distance w j i e ≤ min_collision_distance := by
    rw [get_distance_symm]
    exact hd
  refine ⟨(mem_orderedPairs (j, i)).mpr hij, ?_, ?_,
    fun k => firstAgentBody_agent_collision_rew w st k e⟩
  · unfold pairAdd
    exact if_pos ⟨Or.inr rfl, hcs, hds⟩
  · unfold pairAdd
    exact if_pos ⟨Or.inl rfl, hcs, hds⟩

theorem collision_penalty_symmetric_witness :
    ((0 : Fin 2) < 1) ∧ collides wTwo 0 1 ∧
    get_distance wTwo 0 1 0 ≤ min_collision_distance ∧
    pairAdd wTwo (1, 0) 0 0 = wTwo.cfg.agent_collision_penalty := by
  have h01 : (0 : Fin 2) < 1 := by decide
  have hc : collides wTwo 0 1 := ⟨rfl, rfl⟩
  have hd : get_distance wTwo 0 1 0 ≤ min_collision_distance := by
    show vecNorm (vsub ((0 : ℝ), (0 : ℝ)) ((0 : ℝ), (0 : ℝ))) - 0 - 0 ≤
      min_collision_distance
    rw [show vsub ((0 : ℝ), (0 : ℝ)) ((0 : ℝ), (0 : ℝ)) =
          ((0 : ℝ), (0 : ℝ)) by simp [vsub], vecNorm_zero]
    norm_num [min_collision_distance]
  exact ⟨h01, hc, hd,
    (collision_penalty_symmetric wTwo stTwo 0 1 0 h01 hc hd).2.1⟩

/-! ### Claim C8: heuristic CLF-QP controller bounds -/

/-- `clf_epsilon` default of `HeuristicPolicy.__init__`. -/
noncomputable def clf_epsilon : ℝ := 0.2

/-- `clf_slack` (slack weight) default of `HeuristicPolicy.__init__`. -/
noncomputable def clf_slack : ℝ := 100

/-- The Lyapunov data `compute_action` derives from one observation row:
`V_value`, `LfV_val` and `LgV_vals` (lines 395-423), with
`agent_pos = obs[0:2]`, `agent_vel = obs[2:4]`,
`goal_pos = -1 * (obs[4:6] - agent_pos)`. -/
structure CLFParams where
  V : ℝ
  LfV : ℝ
  LgV : Vec2

noncomputable def clfParams (obs : ℕ → ℝ) : CLFParams :=
  let agent_pos : Vec2 := (obs 0, obs 1)
  let agent_vel : Vec2 := (obs 2, obs 3)
  let goal_pos : Vec2 :=
    (-1 * (obs 4 - agent_pos.1), -1 * (obs 5 - agent_pos.2))
  { V :=
      (agent_pos.1 - goal_pos.1) ^ 2 +
        0.5 * (agent_pos.1 - goal_pos.1) * agent_vel.1 + agent_vel.1 ^ 2 +
        (agent_pos.2 - goal_pos.2) ^ 2 +
        0.5 * (agent_pos.2 - goal_pos.2) * agent_vel.2 + agent_vel.2 ^ 2
    LfV :=
      (2 * (agent_pos.1 - goal_pos.1) + agent_vel.1) * agent_vel.1 +
        (2 * (agent_pos.2 - goal_pos.2) + agent_vel.2) * agent_vel.2
    LgV :=
      (0.5 * (agent_pos.1 - goal_pos.1) + 2 * agent_vel.1,
       0.5 * (agent_pos.2 - goal_pos.2) + 2 * agent_vel.2) }

/-- The QP constraint set of `compute_action` (lines 439-444):
`u <= u_range` and `u >= -u_range` componentwise, and the CLF decrease
condition `LfV + LgV @ u + clf_epsilon * V + slack <= 0`. -/
def QPFeasible (P : CLFParams) (u_range : ℝ) (u : Vec2) (s : ℝ) : Prop :=
  u.1 ≤ u_range ∧ u.2 ≤ u_range ∧ -u_range ≤ u.1 ∧ -u_range ≤ u.2 ∧
  P.LfV + (P.LgV.1 * u.1 + P.LgV.2 * u.2) + clf_epsilon * P.V + s ≤ 0

/-- The QP objective (line 436): `sum_squares(u) + clf_slack * slack^2`. -/
noncomputable def QPObjective (u : Vec2) (s : ℝ) : ℝ :=
  u.1 ^ 2 + u.2 ^ 2 + clf_slack * s ^ 2

/-- Modelled from the spec: the differentiable convex-solver layer
(cvxpy / cvxpylayers, external dependencies not in this repository)
returns an optimal point of the QP assembled by `compute_action`; the
method returns its `u` part.  This predicate says `(u, s)` is such an
optimal point for the given observation row and action bound. -/
def IsComputedAction (obs : ℕ → ℝ) (u_range : ℝ) (u : Vec2) (s : ℝ) :
    Prop :=
  QPFeasible (clfParams obs) u_range u s ∧
  ∀ u2 s2, QPFeasible (clfParams obs) u_range u2 s2 →
    QPObjective u s ≤ QPObjective u2 s2

/-- The QP is always feasible (the slack absorbs the CLF condition), so
the solver is never handed an infeasible problem. -/
lemma qp_always_feasible (P : CLFParams) (u_range : ℝ)
    (h : 0 ≤ u_range) :
    QPFeasible P u_range (0, 0) (-(P.LfV + clf_epsilon * P.V)) := by
  refine ⟨h, h, by simpa using neg_nonpos.mpr h,
    by simpa using neg_nonpos.mpr h, ?_⟩
  simp
  ring_nf
  simp [mul_comm]

/-- C8: every component of the action `compute_action` returns lies in
`[-u_range, u_range]`. -/
theorem compute_action_within_bounds (obs : ℕ → ℝ) (u_range : ℝ)
    (u : Vec2) (s : ℝ) (h : IsComputedAction obs u_range u s) :
    (-u_range ≤ u.1 ∧ u.1 ≤ u_range) ∧
    (-u_range ≤ u.2 ∧ u.2 ≤ u_range) :=
  ⟨⟨h.1.2.2.1, h.1.1⟩, ⟨h.1.2.2.2.1, h.1.2.1⟩⟩

theorem compute_action_within_bounds_witness :
    IsComputedAction (fun _ => 0) 1 (0, 0) 0 ∧
    ((-1 ≤ (0 : ℝ) ∧ (0 : ℝ) ≤ 1) ∧ (-1 ≤ (0 : ℝ) ∧ (0 : ℝ) ≤ 1)) := by
  have hfeas : QPFeasible (clfParams (fun _ => 0)) 1 (0, 0) 0 := by
    refine ⟨by norm_num, by norm_num, by norm_num, by norm_num, ?_⟩
    show (clfParams fun _ => 0).LfV +
        ((clfParams fun _ => 0).LgV.1 * 0 +
          (clfParams fun _ => 0).LgV.2 * 0) +
        clf_epsilon * (clfParams fun _ => 0).V + 0 ≤ 0
    norm_num [clfParams, clf_epsilon]
  have hsol : IsComputedAction (fun _ => 0) 1 (0, 0) 0 := by
    refine ⟨hfeas, fun u2 s2 _ => ?_⟩
    show QPObjective (0, 0) 0 ≤ QPObjective u2 s2
    unfold QPObjective clf_slack
    norm_num
    positivity
  exact ⟨hsol, compute_action_within_bounds (fun _ => 0) 1 (0, 0) 0 hsol⟩

/-! ### Claim C10: single-environment reset touches only its own slot -/

/-- Sequential goal placement (lines 308-319): draw `k` positions, each
from the `findPos` oracle applied to the occupied positions so far, and
append each draw to the occupied list before the next draw.  `findPos`
abstracts the external `ScenarioUtils.find_random_pos_for_entity` (its
fixed world/bounds/min-distance arguments are folded into it). -/
def goalDraws (findPos : List Vec2 → Vec2) : List Vec2 → ℕ → List Vec2
  | _, 0 => []
  | occ, k + 1 =>
      let p := findPos occ
      p :: goalDraws findPos (occ ++ [p]) k

/-- `Scenario.reset_world_at(env_index = e)` for a single environment
index (lines 292-343): re-spawn the agents at index `e`, collect the
occupied positions of index `e` only, draw the goal positions
sequentially, assign agent `i`'s goal the drawn position `goalIndex i`
at index `e` only, and rewrite the shaping baseline at index `e` from
the fresh agent-goal distance.  Modelled from the spec where external:
the placement utilities (`spawn_entities_randomly` abstracted by
`spawnPos`, `find_random_pos_for_entity` by `findPos`) and the
single-index `set_pos` write (§4.4, §6). -/
noncomputable def reset_world_at (w : NavWorld n)
    (pos_shaping : Fin n → ℕ → ℝ) (spawnPos : Fin n → Vec2)
    (findPos : List Vec2 → Vec2) (e : ℕ) :
    NavWorld n × (Fin n → ℕ → ℝ) :=
  let pos1 : Fin n → ℕ → Vec2 :=
    fun a => Function.update (w.pos a) e (spawnPos a)
  let occupied : List Vec2 := (List.finRange n).map fun a => pos1 a e
  let goal_poses : List Vec2 := goalDraws findPos occupied n
  let goalPos1 : Fin n → ℕ → Vec2 := fun a =>
    Function.update (w.goalPos a) e
      (goal_poses.getD (goalIndex w.cfg a.val) (0, 0))
  let sh1 : Fin n → ℕ → ℝ := fun a =>
    Function.update (pos_shaping a) e
      (vecNorm (vsub (pos1 a e) (goalPos1 a e)) * w.cfg.pos_shaping_factor)
  ({ w with pos := pos1, goalPos := goalPos1 }, sh1)

/-- C10: resetting environment `e` changes goal positions, agent
positions and shaping baselines only at batch index `e`; and the values
written at index `e` are the same for any two prior states with the same
configuration (they depend only on the placement draws and the
configuration, not on any other environment's state). -/
theorem reset_world_at_frame (w w2 : NavWorld n)
    (sh sh2 : Fin n → ℕ → ℝ) (spawnPos : Fin n → Vec2)
    (findPos : List Vec2 → Vec2) (e e2 : ℕ) (hne : e2 ≠ e)
    (hcfg : w2.cfg = w.cfg) :
    (∀ a : Fin n,
      (reset_world_at w sh spawnPos findPos e).1.goalPos a e2 =
        w.goalPos a e2 ∧
      (reset_world_at w sh spawnPos findPos e).2 a e2 = sh a e2 ∧
      (reset_world_at w sh spawnPos findPos e).1.pos a e2 = w.pos a e2) ∧
    (∀ a : Fin n,
      (reset_world_at w2 sh2 spawnPos findPos e).1.goalPos a e =
        (reset_world_at w sh spawnPos findPos e).1.goalPos a e ∧
      (reset_world_at w2 sh2 spawnPos findPos e).2 a e =
        (reset_world_at w sh spawnPos findPos e).2 a e) := by
  have hocc :
      ((List.finRange n).map fun b =>
        Function.update (w2.pos b) e (spawnPos b) e) =
      ((List.finRange n).map fun b =>
        Function.update (w.pos b) e (spawnPos b) e) := by
    refine List.map_congr_left fun b _ => ?_
    rw [Function.update_same, Function.update_same]
  constructor
  · intro a
    unfold reset_world_at
    exact ⟨Function.update_noteq hne _ _, Function.update_noteq hne _ _,
      Function.update_noteq hne _ _⟩
  · intro a
    unfold reset_world_at
    dsimp only
    rw [Function.update_same, Function.update_same, Function.update_same,
      Function.update_same, Function.update_same, Function.update_same,
      hocc, hcfg]
    exact ⟨rfl, rfl⟩

/-- Oracles for the C10 witness: spawn both agents at fixed points and
let every placement query return the origin. -/
noncomputable def spawnTwo : Fin 2 → Vec2 := fun a => (a.val, 0)

noncomputable def findOrigin : List Vec2 → Vec2 := fun _ => (0, 0)

noncomputable def shTwo : Fin 2 → ℕ → ℝ := fun _ _ => 0

theorem reset_world_at_frame_witness :
    ((1 : ℕ) ≠ 0) ∧ (wTwo.cfg = wTwo.cfg) ∧
    (∀ a : Fin 2,
      (reset_world_at wTwo shTwo spawnTwo findOrigin 0).1.goalPos a 1 =
        wTwo.goalPos a 1 ∧
      (reset_world_at wTwo shTwo spawnTwo findOrigin 0).2 a 1 =
        shTwo a 1 ∧
      (reset_world_at wTwo shTwo spawnTwo findOrigin 0).1.pos a 1 =
        wTwo.pos a 1) :=
  ⟨one_ne_zero, rfl,
    (reset_world_at_frame wTwo wTwo shTwo shTwo spawnTwo findOrigin 0 1
      one_ne_zero rfl).1⟩

end Navigation
